import Mathlib

/-! Shallow embedding of `src/backend/src/scripts/opencv_converter.py`.

The script's own logic — the color-mode dispatch, the per-contour
area/vertex filtering loops, the SVG path serializer, the SVG document
assembly, the `STATS:` summary line and the top-level error handling of
`main` — is embedded directly, statement by statement.  Every call into
the external vision library (OpenCV) is modelled as a field of the
oracle structure `CV`, so all theorems quantify over every possible
behaviour of that library; fixed arguments the script always passes
(adaptive block size 11 and constant 2, the 2×2 morphology kernel, the
retrieval mode, chain approximation) are folded into the corresponding
oracle field.  Python floats are modelled as rationals, Python `dict`
lookups as `Option` fields whose absence raises a `KeyError`, and a
raised exception as the `Except.error` branch carrying `str(e)`.
-/

/-- A contour point: OpenCV contour entries `contour[i][0]` are pixel
coordinates, always non-negative integers. -/
abbrev Point := Nat × Nat

/-- An OpenCV contour: the ordered vertex list of a closed polygon. -/
abbrev Contour := List Point

/-- A raised Python exception, identified by its `str(e)` text. -/
structure PyErr where
  msg : String
deriving Repr, DecidableEq

/-- Python `str(KeyError(k))` is the `repr` of the key, i.e. the key in single
quotes. -/
def key_error (k : String) : PyErr := ⟨"'" ++ k ++ "'"⟩

/-- The JSON parameter object restricted to the keys the script reads.
A key absent from the parsed JSON object is `none`; subscripting a
missing key (`params['k']`) raises `KeyError` while `params.get(k, d)`
falls back to the default. -/
structure Params where
  colorMode : Option String
  minArea : Option ℚ
  epsilon : Option ℚ
  threshold : Option ℚ
  smooth : Option Bool
deriving Repr, DecidableEq

/-- Oracle for the external OpenCV library.  `Img`, `Gray` and `Mask`
are the (abstract) types of loaded colour images, single-channel images
and binary masks.  `shape` returns `(height, width)` as `img.shape[:2]`
does. -/
structure CV (Img Gray Mask : Type) where
  imread : String → Option Img
  shape : Img → Nat × Nat
  gaussianBlur : Img → Img
  cvtColor_gray : Img → Gray
  equalizeHist : Gray → Gray
  adaptiveThreshold : Gray → Mask
  threshold : Gray → ℚ → Mask
  canny : Gray → ℚ → ℚ → Mask
  bitwise_or : Mask → Mask → Mask
  morph_close : Mask → Mask
  morph_open : Mask → Mask
  findContours : Mask → List Contour
  contourArea : Contour → ℚ
  arcLength : Contour → ℚ
  approxPolyDP : Contour → ℚ → Contour
  channel : Img → Nat → Gray

/-- The function `create_svg_path` (source lines 8–20): serializes a contour as an
SVG path string `M x0 y0 L x1 y1 … Z`, or the empty string when fewer
than 3 vertices are given.  The script always calls it with both scale
factors equal to 1. -/
def create_svg_path (contour : Contour) (scale_x scale_y : Nat) : String :=
  if contour.length < 3 then ""
  else
    match contour with
    | [] => ""
    | p0 :: rest =>
      let path := "M " ++ toString (p0.1 * scale_x) ++ " " ++ toString (p0.2 * scale_y)
      let path := rest.foldl
        (fun acc q => acc ++ (" L " ++ toString (q.1 * scale_x) ++ " " ++ toString (q.2 * scale_y)))
        path
      path ++ " Z"

variable {I G M : Type}

/-- The optional pre-blur (source lines 33–35): applied iff
`params.get('smooth', True)` is truthy. -/
def blurred (cv : CV I G M) (p : Params) (img : I) : I :=
  if p.smooth.getD true then cv.gaussianBlur img else img

/-- The combined binary-mode mask (source lines 42–68): adaptive
threshold OR global threshold OR Canny edges, then one morphological
close and one open with the 2×2 kernel.  `g` is the equalized
grayscale plane and `tv` the configured global threshold value. -/
def binary_combined_mask (cv : CV I G M) (g : G) (tv : ℚ) : M :=
  let adaptive_thresh := cv.adaptiveThreshold g
  let regular_thresh := cv.threshold g tv
  let edges := cv.canny g (max 50 (tv - 50)) (min 255 (tv + 50))
  cv.morph_open (cv.morph_close (cv.bitwise_or (cv.bitwise_or adaptive_thresh regular_thresh) edges))

/-- The per-level grayscale-mode mask (source lines 100–112): adaptive
threshold OR global threshold at the level, then one morphological
close. -/
def gray_level_mask (cv : CV I G M) (g : G) (lvl : Nat) : M :=
  cv.morph_close (cv.bitwise_or (cv.adaptiveThreshold g) (cv.threshold g (lvl : ℚ)))

/-- The per-channel color-mode mask (source lines 134–153): equalize
the raw channel, adaptive threshold OR global threshold, then one
morphological close. -/
def color_channel_mask (cv : CV I G M) (img : I) (ch : Nat) (tv : ℚ) : M :=
  let channel_img := cv.equalizeHist (cv.channel img ch)
  cv.morph_close (cv.bitwise_or (cv.adaptiveThreshold channel_img) (cv.threshold channel_img tv))

/-- The fill colour of a grayscale level (source lines 117–118):
`rgb(255-level,255-level,255-level)`. -/
def gray_color (lvl : Nat) : String :=
  let gray_value := 255 - lvl
  "rgb(" ++ toString gray_value ++ "," ++ toString gray_value ++ "," ++ toString gray_value ++ ")"

/-- The fill colour of a colour channel (source lines 158–160): a
`[0,0,0]` triple with position `2 - channel` set to 255 (BGR to RGB). -/
def channel_color (ch : Nat) : String :=
  let color_values := (([0, 0, 0] : List Nat).set (2 - ch) 255)
  "rgb(" ++ toString (color_values.getD 0 0) ++ "," ++ toString (color_values.getD 1 0) ++
    "," ++ toString (color_values.getD 2 0) ++ ")"

/-- The per-contour filtering loop shared by all three modes (source
lines 75–86, 120–129, 162–171): for each raw contour, keep it when its
area is at least `params['minArea']` and its
`approxPolyDP`-simplification (tolerance
`params['epsilon'] * arcLength * 0.01`) still has at least 3 vertices;
retained simplified contours and the branch colour are appended to the
two parallel accumulator lists.  Subscripting a missing `minArea` or
`epsilon` raises `KeyError`. -/
def contour_filter_loop (cv : CV I G M) (p : Params) (color : String) :
    List Contour → List Contour × List String → Except PyErr (List Contour × List String)
  | [], acc => .ok acc
  | contour :: rest, acc =>
    match p.minArea with
    | none => .error (key_error "minArea")
    | some minArea =>
      if minArea ≤ cv.contourArea contour then
        match p.epsilon with
        | none => .error (key_error "epsilon")
        | some eps =>
          let simplified := cv.approxPolyDP contour (eps * cv.arcLength contour * (1 / 100))
          if 3 ≤ simplified.length then
            contour_filter_loop cv p color rest (acc.1 ++ [simplified], acc.2 ++ [color])
          else
            contour_filter_loop cv p color rest acc
      else
        contour_filter_loop cv p color rest acc

/-- The grayscale-mode loop over the seven threshold levels (source
lines 98–129). -/
def grayscale_levels_loop (cv : CV I G M) (p : Params) (gray : G) :
    List Nat → List Contour × List String → Except PyErr (List Contour × List String)
  | [], acc => .ok acc
  | lvl :: rest, acc =>
    let contours := cv.findContours (gray_level_mask cv gray lvl)
    match contour_filter_loop cv p (gray_color lvl) contours acc with
    | .error e => .error e
    | .ok acc2 => grayscale_levels_loop cv p gray rest acc2

/-- The colour-mode loop over the three BGR channels (source lines
133–171); the global threshold `params.get('threshold', 80)` is read
inside the loop. -/
def color_channels_loop (cv : CV I G M) (p : Params) (img : I) :
    List Nat → List Contour × List String → Except PyErr (List Contour × List String)
  | [], acc => .ok acc
  | ch :: rest, acc =>
    let contours := cv.findContours (color_channel_mask cv img ch (p.threshold.getD 80))
    match contour_filter_loop cv p (channel_color ch) contours acc with
    | .error e => .error e
    | .ok acc2 => color_channels_loop cv p img rest acc2

/-- One serialized `<path>` element (source line 182). -/
def path_elem_string (d col : String) : String :=
  "  <path d=\"" ++ d ++ "\" fill=\"" ++ col ++ "\" stroke=\"none\"/>\n"

/-- The SVG document header (source lines 174–177), with the root
`width`, `height` and `viewBox` attributes. -/
def svg_header (w h : Nat) : String :=
  "<?xml version=\"1.0\" encoding=\"UTF-8\"?>\n<svg width=\"" ++ toString w ++
    "\" height=\"" ++ toString h ++ "\" viewBox=\"0 0 " ++ toString w ++ " " ++ toString h ++
    "\" \n     xmlns=\"http://www.w3.org/2000/svg\">\n"

/-- The statistics line (source line 191). -/
def stats_string (contours_list : List Contour) : String :=
  "STATS:contours=" ++ toString contours_list.length ++ ",points=" ++
    toString ((contours_list.map List.length).sum)

/-- The `<path>` element produced for one (contour, colour) pair in the
writer loop (source lines 179–182): skipped when the serialized path
data is empty. -/
def mk_path_elem (c : Contour) (col : String) : Option (String × String) :=
  let path_data := create_svg_path c 1 1
  if path_data = "" then none else some (path_data, col)

/-- The progress line `Processing image: {width}x{height}` (source
line 31). -/
def proc_line (w h : Nat) : String :=
  "Processing image: " ++ toString w ++ "x" ++ toString h

/-- The binary-mode line `Found {n} contours` (source line 73). -/
def found_line (n : Nat) : String := "Found " ++ toString n ++ " contours"

/-- The binary-mode line `Kept {k} contours after filtering` (source
line 88). -/
def kept_line (k : Nat) : String := "Kept " ++ toString k ++ " contours after filtering"

/-- Everything a successful `process_image` run produces: the image
dimensions used, the two parallel accumulator lists, the `<path>`
elements actually written, the full SVG text, the `STATS:` line and the
lines printed to standard output. -/
structure ProcOut where
  width : Nat
  height : Nat
  contours_list : List Contour
  colors : List String
  path_elems : List (String × String)
  svg_content : String
  stats_line : String
  stdout_lines : List String
deriving Repr, DecidableEq, Inhabited

/-- Assembly of the SVG document, the statistics line and the final
prints from the accumulated shape and colour lists (source lines
173–191). -/
def mk_proc_out (width height : Nat) (contours_list : List Contour) (colors : List String)
    (pre_stdout : List String) : ProcOut :=
  let path_elems := (contours_list.zip colors).filterMap (fun pr => mk_path_elem pr.1 pr.2)
  let svg_content := svg_header width height ++
    String.join (path_elems.map (fun e => path_elem_string e.1 e.2)) ++ "</svg>"
  ⟨width, height, contours_list, colors, path_elems, svg_content,
    stats_string contours_list, pre_stdout ++ [stats_string contours_list]⟩

/-- The function `process_image` (source lines 22–191).  Returns `.error e` when the
Python function would raise the exception `e`, and `.ok` with the run's
outputs otherwise. -/
def process_image (cv : CV I G M) (image_path output_path : String) (p : Params) :
    Except PyErr ProcOut :=
  match cv.imread image_path with
  | none => .error ⟨"Could not read image: " ++ image_path⟩
  | some img0 =>
    let height := (cv.shape img0).1
    let width := (cv.shape img0).2
    let line1 := proc_line width height
    let img := blurred cv p img0
    match p.colorMode with
    | none => .error (key_error "colorMode")
    | some mode =>
      if mode = "binary" then
        let gray := cv.equalizeHist (cv.cvtColor_gray img)
        let contours := cv.findContours (binary_combined_mask cv gray (p.threshold.getD 80))
        let line2 := found_line contours.length
        match contour_filter_loop cv p "#000000" contours ([], []) with
        | .error e => .error e
        | .ok acc =>
          let line3 := kept_line acc.1.length
          .ok (mk_proc_out width height acc.1 acc.2 [line1, line2, line3])
      else if mode = "grayscale" then
        let gray := cv.equalizeHist (cv.cvtColor_gray img)
        match grayscale_levels_loop cv p gray [32, 64, 96, 128, 160, 192, 224] ([], []) with
        | .error e => .error e
        | .ok acc => .ok (mk_proc_out width height acc.1 acc.2 [line1])
      else if mode = "color" then
        match color_channels_loop cv p img [0, 1, 2] ([], []) with
        | .error e => .error e
        | .ok acc => .ok (mk_proc_out width height acc.1 acc.2 [line1])
      else
        .ok (mk_proc_out width height [] [] [line1])

/-- The observable outcome of one whole process invocation. -/
structure RunResult where
  exitCode : Nat
  stdout : List String
  stderr : List String
  fileWritten : Option (String × String)
deriving Repr, DecidableEq

/-- The double-quote character stripped from the two path arguments. -/
def dquote : Char := Char.ofNat 34

/-- The single-quote character stripped from the JSON argument. -/
def squote : Char := Char.ofNat 39

/-- Python `str.strip(c)`: remove every leading and trailing `c`. -/
def py_strip (s : String) (c : Char) : String :=
  ⟨((s.data.dropWhile (fun a => a = c)).reverse.dropWhile (fun a => a = c)).reverse⟩

/-- The entry point `main` (source lines 193–208).  `json_loads` is the oracle for
Python's `json.loads`; `argv` is the full argument vector including the
program name.  A successful run exits 0 after printing the success
line; any exception is reported as `Error: <message>` on standard error
with exit code 1, and in that case no output file has been written
(every raise in `process_image` happens before the file is opened). -/
def main_run (cv : CV I G M) (json_loads : String → Except PyErr Params)
    (argv : List String) : RunResult :=
  if argv.length ≠ 4 then
    ⟨1, ["Usage: python opencv_converter.py <input_image> <output_svg> <params_json>"], [], none⟩
  else
    let input_path := py_strip (argv.getD 1 "") dquote
    let output_path := py_strip (argv.getD 2 "") dquote
    let params_json := py_strip (argv.getD 3 "") squote
    match json_loads params_json with
    | .error e => ⟨1, [], ["Error: " ++ e.msg], none⟩
    | .ok params =>
      match process_image cv input_path output_path params with
      | .error e => ⟨1, [], ["Error: " ++ e.msg], none⟩
      | .ok out =>
        ⟨0, out.stdout_lines ++ ["Conversion completed successfully"], [],
          some (output_path, out.svg_content)⟩

/-! Section: Decimal rendering facts

Coordinates are rendered with Python's `str` on integers; in the
embedding that is `toString : Nat → String`, i.e. `Nat.repr`.  The only
fact the claims need is that every rendered character is a decimal
digit, so coordinate text can never contribute an `M`, `L` or `Z` to a
path string. -/

lemma digitChar_isDigit {m : Nat} (h : m < 10) : (Nat.digitChar m).isDigit := by
  interval_cases m <;> decide

lemma toDigitsCore_digits :
    ∀ (fuel n : Nat) (ds : List Char), (∀ c ∈ ds, c.isDigit) →
      ∀ c ∈ Nat.toDigitsCore 10 fuel n ds, c.isDigit := by
  intro fuel
  induction fuel with
  | zero =>
    intro n ds h c hc
    simpa [Nat.toDigitsCore] using h c (by simpa [Nat.toDigitsCore] using hc)
  | succ fuel ih =>
    intro n ds h c hc
    rw [Nat.toDigitsCore] at hc
    by_cases h10 : n / 10 = 0
    · rw [if_pos h10] at hc
      rcases List.mem_cons.mp hc with rfl | hmem
      · exact digitChar_isDigit (Nat.mod_lt _ (by norm_num))
      · exact h c hmem
    · rw [if_neg h10] at hc
      refine ih (n / 10) (_ :: ds) ?_ c hc
      intro c' hc'
      rcases List.mem_cons.mp hc' with rfl | hmem
      · exact digitChar_isDigit (Nat.mod_lt _ (by norm_num))
      · exact h c' hmem

lemma nat_toString_digits (n : Nat) : ∀ c ∈ (toString n).data, c.isDigit := by
  intro c hc
  have : (toString n).data = Nat.toDigits 10 n := rfl
  rw [this] at hc
  exact toDigitsCore_digits (n + 1) n [] (by simp) c hc

lemma count_nat_toString_eq_zero {a : Char} (ha : ¬a.isDigit) (n : Nat) :
    (toString n).data.count a = 0 :=
  List.count_eq_zero.mpr (fun hmem => ha (nat_toString_digits n a hmem))

/-! Section: Structure of the serialized path string -/

lemma string_foldl_append_data (f : Point → String) :
    ∀ (l : List Point) (a : String),
      (l.foldl (fun acc q => acc ++ f q) a).data =
        a.data ++ (l.map (fun q => (f q).data)).flatten := by
  intro l
  induction l with
  | nil => intro a; simp
  | cons q rest ih =>
    intro a
    simp only [List.foldl_cons, ih, String.data_append, List.map_cons, List.flatten_cons,
      List.append_assoc]

lemma create_svg_path_cons_data (p0 : Point) (rest : List Point)
    (h : ¬(p0 :: rest).length < 3) :
    (create_svg_path (p0 :: rest) 1 1).data =
      ("M " ++ toString (p0.1 * 1) ++ " " ++ toString (p0.2 * 1)).data ++
        (rest.map (fun q =>
          (" L " ++ toString (q.1 * 1) ++ " " ++ toString (q.2 * 1)).data)).flatten ++
        " Z".data := by
  rw [create_svg_path, if_neg h]
  simp only [String.data_append,
    string_foldl_append_data (fun q => " L " ++ toString (q.1 * 1) ++ " " ++ toString (q.2 * 1)),
    List.append_assoc]

lemma head_data (p0 : Point) :
    ("M " ++ toString (p0.1 * 1) ++ " " ++ toString (p0.2 * 1)).data =
      ['M', ' '] ++ (toString (p0.1 * 1)).data ++ [' '] ++ (toString (p0.2 * 1)).data := by
  simp only [String.data_append, List.append_assoc]

lemma seg_data (q : Point) :
    (" L " ++ toString (q.1 * 1) ++ " " ++ toString (q.2 * 1)).data =
      [' ', 'L', ' '] ++ (toString (q.1 * 1)).data ++ [' '] ++ (toString (q.2 * 1)).data := by
  simp only [String.data_append, List.append_assoc]

lemma head_count_M (p0 : Point) :
    ("M " ++ toString (p0.1 * 1) ++ " " ++ toString (p0.2 * 1)).data.count 'M' = 1 := by
  rw [head_data]
  simp [List.count_append, count_nat_toString_eq_zero (show ¬('M'.isDigit) by decide)]

lemma head_count_L (p0 : Point) :
    ("M " ++ toString (p0.1 * 1) ++ " " ++ toString (p0.2 * 1)).data.count 'L' = 0 := by
  rw [head_data]
  simp [List.count_append, count_nat_toString_eq_zero (show ¬('L'.isDigit) by decide)]

lemma seg_count_M (q : Point) :
    (" L " ++ toString (q.1 * 1) ++ " " ++ toString (q.2 * 1)).data.count 'M' = 0 := by
  rw [seg_data]
  simp [List.count_append, count_nat_toString_eq_zero (show ¬('M'.isDigit) by decide)]

lemma seg_count_L (q : Point) :
    (" L " ++ toString (q.1 * 1) ++ " " ++ toString (q.2 * 1)).data.count 'L' = 1 := by
  rw [seg_data]
  simp [List.count_append, count_nat_toString_eq_zero (show ¬('L'.isDigit) by decide)]

lemma create_svg_path_count_M (p0 : Point) (rest : List Point) (h : ¬(p0 :: rest).length < 3) :
    (create_svg_path (p0 :: rest) 1 1).data.count 'M' = 1 := by
  rw [create_svg_path_cons_data p0 rest h]
  rw [List.count_append, List.count_append, List.count_flatten, List.map_map]
  have hz : (" Z" : String).data.count 'M' = 0 := by decide
  have hmap : (rest.map (List.count 'M' ∘ fun q =>
      (" L " ++ toString (q.1 * 1) ++ " " ++ toString (q.2 * 1)).data)) =
      rest.map (fun _ => 0) :=
    List.map_congr_left (fun q _ => seg_count_M q)
  rw [hmap, head_count_M p0, hz]
  simp

lemma create_svg_path_count_L (p0 : Point) (rest : List Point) (h : ¬(p0 :: rest).length < 3) :
    (create_svg_path (p0 :: rest) 1 1).data.count 'L' = rest.length := by
  rw [create_svg_path_cons_data p0 rest h]
  rw [List.count_append, List.count_append, List.count_flatten, List.map_map]
  have hz : (" Z" : String).data.count 'L' = 0 := by decide
  have hmap : (rest.map (List.count 'L' ∘ fun q =>
      (" L " ++ toString (q.1 * 1) ++ " " ++ toString (q.2 * 1)).data)) =
      rest.map (fun _ => 1) :=
    List.map_congr_left (fun q _ => seg_count_L q)
  rw [hmap, head_count_L p0, hz]
  simp

lemma create_svg_path_ends_Z (pts : List Point) (h : ¬pts.length < 3) :
    ∃ s, create_svg_path pts 1 1 = s ++ " Z" := by
  match pts with
  | [] => simp at h
  | p0 :: rest =>
    rw [create_svg_path.eq_def, if_neg h]
    exact ⟨_, rfl⟩

lemma create_svg_path_ne_empty (pts : List Point) (h : ¬pts.length < 3) :
    create_svg_path pts 1 1 ≠ "" := by
  obtain ⟨s, hs⟩ := create_svg_path_ends_Z pts h
  rw [hs]
  intro hemp
  have := congrArg String.data hemp
  simp [String.data_append] at this

lemma create_svg_path_short (pts : List Point) (h : pts.length < 3) :
    create_svg_path pts 1 1 = "" := by
  rw [create_svg_path.eq_def, if_pos h]

lemma mk_path_elem_short (pts : List Point) (col : String) (h : pts.length < 3) :
    mk_path_elem pts col = none := by
  rw [mk_path_elem]
  simp [create_svg_path_short pts h]

lemma mk_path_elem_long (pts : List Point) (col : String) (h : ¬pts.length < 3) :
    mk_path_elem pts col = some (create_svg_path pts 1 1, col) := by
  rw [mk_path_elem]
  simp [create_svg_path_ne_empty pts h]

/-! Section: Behaviour of the shared per-contour filtering loop -/

lemma contour_filter_loop_ok (cv : CV I G M) (p : Params) (color : String) :
    ∀ (raws : List Contour) (acc res : List Contour × List String),
      contour_filter_loop cv p color raws acc = .ok res →
      ∃ news : List Contour,
        res.1 = acc.1 ++ news ∧ res.2 = acc.2 ++ List.replicate news.length color ∧
        ∀ c ∈ news, 3 ≤ c.length ∧
          ∃ raw ∈ raws, ∃ mn eps, p.minArea = some mn ∧ p.epsilon = some eps ∧
            mn ≤ cv.contourArea raw ∧
            c = cv.approxPolyDP raw (eps * cv.arcLength raw * (1 / 100)) := by
  intro raws
  induction raws with
  | nil =>
    intro acc res h
    simp only [contour_filter_loop] at h
    cases h
    exact ⟨[], by simp⟩
  | cons contour rest ih =>
    intro acc res h
    rw [contour_filter_loop] at h
    cases hmn : p.minArea with
    | none => simp only [hmn] at h; cases h
    | some mn =>
      simp only [hmn] at h
      by_cases harea : mn ≤ cv.contourArea contour
      · rw [if_pos harea] at h
        cases heps : p.epsilon with
        | none => simp only [heps] at h; cases h
        | some eps =>
          simp only [heps] at h
          by_cases hlen :
              3 ≤ (cv.approxPolyDP contour (eps * cv.arcLength contour * (1 / 100))).length
          · rw [if_pos hlen] at h
            obtain ⟨news, h1, h2, h3⟩ := ih _ _ h
            refine ⟨cv.approxPolyDP contour (eps * cv.arcLength contour * (1 / 100)) :: news,
              ?_, ?_, ?_⟩
            · simpa [List.append_assoc] using h1
            · simpa [List.replicate_succ, List.append_assoc] using h2
            · intro c hc
              rcases List.mem_cons.mp hc with rfl | hc'
              · exact ⟨hlen, contour, List.mem_cons_self _ _, mn, eps, rfl, rfl, harea, rfl⟩
              · obtain ⟨hl, raw, hraw, mn', eps', h4, h5, h6, h7⟩ := h3 c hc'
                exact ⟨hl, raw, List.mem_cons_of_mem _ hraw, mn', eps',
                  hmn.symm.trans h4, heps.symm.trans h5, h6, h7⟩
          · rw [if_neg hlen] at h
            obtain ⟨news, h1, h2, h3⟩ := ih _ _ h
            refine ⟨news, h1, h2, ?_⟩
            intro c hc
            obtain ⟨hl, raw, hraw, mn', eps', h4, h5, h6, h7⟩ := h3 c hc
            exact ⟨hl, raw, List.mem_cons_of_mem _ hraw, mn', eps',
              hmn.symm.trans h4, heps.symm.trans h5, h6, h7⟩
      · rw [if_neg harea] at h
        obtain ⟨news, h1, h2, h3⟩ := ih _ _ h
        refine ⟨news, h1, h2, ?_⟩
        intro c hc
        obtain ⟨hl, raw, hraw, mn', eps', h4, h5, h6, h7⟩ := h3 c hc
        exact ⟨hl, raw, List.mem_cons_of_mem _ hraw, mn', eps', hmn.symm.trans h4, h5, h6, h7⟩

/-- The pure value of the filtering loop when both required keys are
present: the retained simplified contours, in raw-contour order. -/
def retained_news (cv : CV I G M) (mn eps : ℚ) : List Contour → List Contour
  | [] => []
  | contour :: rest =>
    if mn ≤ cv.contourArea contour then
      let simplified := cv.approxPolyDP contour (eps * cv.arcLength contour * (1 / 100))
      if 3 ≤ simplified.length then simplified :: retained_news cv mn eps rest
      else retained_news cv mn eps rest
    else retained_news cv mn eps rest

lemma contour_filter_loop_eq (cv : CV I G M) (p : Params) (color : String) {mn eps : ℚ}
    (hmn : p.minArea = some mn) (heps : p.epsilon = some eps) :
    ∀ (raws : List Contour) (acc : List Contour × List String),
      contour_filter_loop cv p color raws acc =
        .ok (acc.1 ++ retained_news cv mn eps raws,
          acc.2 ++ List.replicate (retained_news cv mn eps raws).length color) := by
  intro raws
  induction raws with
  | nil => intro acc; simp [contour_filter_loop, retained_news]
  | cons contour rest ih =>
    intro acc
    rw [contour_filter_loop]
    simp only [hmn, heps]
    by_cases harea : mn ≤ cv.contourArea contour
    · rw [if_pos harea]
      by_cases hlen :
          3 ≤ (cv.approxPolyDP contour (eps * cv.arcLength contour * (1 / 100))).length
      · rw [if_pos hlen, ih]
        have hr : retained_news cv mn eps (contour :: rest) =
            cv.approxPolyDP contour (eps * cv.arcLength contour * (1 / 100)) ::
              retained_news cv mn eps rest := by
          rw [retained_news, if_pos harea, if_pos hlen]
        rw [hr]
        simp [List.replicate_succ, List.append_assoc]
      · rw [if_neg hlen, ih]
        have hr : retained_news cv mn eps (contour :: rest) = retained_news cv mn eps rest := by
          rw [retained_news, if_pos harea, if_neg hlen]
        rw [hr]
    · rw [if_neg harea, ih]
      have hr : retained_news cv mn eps (contour :: rest) = retained_news cv mn eps rest := by
        rw [retained_news, if_neg harea]
      rw [hr]

lemma retained_news_sublist (cv : CV I G M) {a1 a2 : ℚ} (eps : ℚ) (h : a1 ≤ a2) :
    ∀ raws : List Contour,
      (retained_news cv a2 eps raws).Sublist (retained_news cv a1 eps raws) := by
  intro raws
  induction raws with
  | nil => simp [retained_news]
  | cons contour rest ih =>
    by_cases harea2 : a2 ≤ cv.contourArea contour
    · have harea1 : a1 ≤ cv.contourArea contour := le_trans h harea2
      by_cases hlen :
          3 ≤ (cv.approxPolyDP contour (eps * cv.arcLength contour * (1 / 100))).length
      · simp only [retained_news, harea1, harea2, hlen, if_true, ite_true]
        exact ih.cons₂ _
      · simp only [retained_news, harea1, harea2, hlen, if_true, ite_true, if_false, ite_false]
        exact ih
    · by_cases harea1 : a1 ≤ cv.contourArea contour
      · by_cases hlen :
            3 ≤ (cv.approxPolyDP contour (eps * cv.arcLength contour * (1 / 100))).length
        · simp only [retained_news, harea1, harea2, hlen, if_true, ite_true, if_false, ite_false]
          exact ih.cons _
        · simp only [retained_news, harea1, harea2, hlen, if_true, ite_true, if_false, ite_false]
          exact ih
      · simp only [retained_news, harea1, harea2, if_false, ite_false]
        exact ih

lemma flatten_sublist_of_forall {α β : Type} (l : List α) (f g : α → List β)
    (h : ∀ a ∈ l, (f a).Sublist (g a)) :
    ((l.map f).flatten).Sublist ((l.map g).flatten) := by
  induction l with
  | nil => simp
  | cons a rest ih =>
    simp only [List.map_cons, List.flatten_cons]
    exact (h a (List.mem_cons_self _ _)).append
      (ih (fun b hb => h b (List.mem_cons_of_mem _ hb)))

lemma grayscale_levels_loop_eq (cv : CV I G M) (p : Params) (gray : G) {mn eps : ℚ}
    (hmn : p.minArea = some mn) (heps : p.epsilon = some eps) :
    ∀ (levels : List Nat) (acc : List Contour × List String),
      grayscale_levels_loop cv p gray levels acc =
        .ok (acc.1 ++ (levels.map (fun lvl =>
              retained_news cv mn eps (cv.findContours (gray_level_mask cv gray lvl)))).flatten,
          acc.2 ++ (levels.map (fun lvl =>
              List.replicate (retained_news cv mn eps
                (cv.findContours (gray_level_mask cv gray lvl))).length
                (gray_color lvl))).flatten) := by
  intro levels
  induction levels with
  | nil => intro acc; simp [grayscale_levels_loop]
  | cons lvl rest ih =>
    intro acc
    rw [grayscale_levels_loop]
    rw [contour_filter_loop_eq cv p (gray_color lvl) hmn heps]
    simp only [ih]
    simp [List.append_assoc]

lemma color_channels_loop_eq (cv : CV I G M) (p : Params) (img : I) {mn eps : ℚ}
    (hmn : p.minArea = some mn) (heps : p.epsilon = some eps) :
    ∀ (chans : List Nat) (acc : List Contour × List String),
      color_channels_loop cv p img chans acc =
        .ok (acc.1 ++ (chans.map (fun ch =>
              retained_news cv mn eps
                (cv.findContours (color_channel_mask cv img ch (p.threshold.getD 80))))).flatten,
          acc.2 ++ (chans.map (fun ch =>
              List.replicate (retained_news cv mn eps
                (cv.findContours (color_channel_mask cv img ch (p.threshold.getD 80)))).length
                (channel_color ch))).flatten) := by
  intro chans
  induction chans with
  | nil => intro acc; simp [color_channels_loop]
  | cons ch rest ih =>
    intro acc
    rw [color_channels_loop]
    rw [contour_filter_loop_eq cv p (channel_color ch) hmn heps]
    simp only [ih]
    simp [List.append_assoc]

/-! Section: Pairing of contours with their colours via `zip` -/

lemma mem_zip_replicate {α β : Type} {l : List α} {col : β} {pr : α × β} :
    pr ∈ l.zip (List.replicate l.length col) → pr.1 ∈ l ∧ pr.2 = col := by
  induction l with
  | nil => simp
  | cons a rest ih =>
    intro h
    rw [List.length_cons, List.replicate_succ, List.zip_cons_cons] at h
    rcases List.mem_cons.mp h with rfl | h'
    · exact ⟨List.mem_cons_self _ _, rfl⟩
    · obtain ⟨h1, h2⟩ := ih h'
      exact ⟨List.mem_cons_of_mem _ h1, h2⟩

lemma exists_pair_of_mem {α β : Type} :
    ∀ {l1 : List α} {l2 : List β}, l1.length = l2.length →
      ∀ c ∈ l1, ∃ d, (c, d) ∈ l1.zip l2 := by
  intro l1
  induction l1 with
  | nil => intro l2 _ c hc; cases hc
  | cons a rest ih =>
    intro l2 hlen c hc
    cases l2 with
    | nil => simp at hlen
    | cons b l2' =>
      rcases List.mem_cons.mp hc with rfl | hc'
      · exact ⟨b, by simp⟩
      · obtain ⟨d, hd⟩ := ih (by simpa using hlen) c hc'
        exact ⟨d, by simp [hd]⟩

lemma grayscale_levels_loop_pairs (cv : CV I G M) (p : Params) (gray : G) :
    ∀ (levels : List Nat) (acc res : List Contour × List String),
      grayscale_levels_loop cv p gray levels acc = .ok res →
      acc.1.length = acc.2.length →
      res.1.length = res.2.length ∧
      ∀ pr ∈ res.1.zip res.2, pr ∈ acc.1.zip acc.2 ∨
        ∃ lvl ∈ levels, pr.2 = gray_color lvl ∧ 3 ≤ pr.1.length ∧
          ∃ raw ∈ cv.findContours (gray_level_mask cv gray lvl), ∃ mn eps,
            p.minArea = some mn ∧ p.epsilon = some eps ∧ mn ≤ cv.contourArea raw ∧
            pr.1 = cv.approxPolyDP raw (eps * cv.arcLength raw * (1 / 100)) := by
  intro levels
  induction levels with
  | nil =>
    intro acc res h hacc
    simp only [grayscale_levels_loop] at h
    cases h
    exact ⟨hacc, fun pr hpr => Or.inl hpr⟩
  | cons lvl rest ih =>
    intro acc res h hacc
    rw [grayscale_levels_loop] at h
    cases hcf : contour_filter_loop cv p (gray_color lvl)
        (cv.findContours (gray_level_mask cv gray lvl)) acc with
    | error e => rw [hcf] at h; cases h
    | ok acc2 =>
      rw [hcf] at h
      simp only at h
      obtain ⟨news, h1, h2, h3⟩ := contour_filter_loop_ok cv p (gray_color lvl) _ _ _ hcf
      have hacc2 : acc2.1.length = acc2.2.length := by
        rw [h1, h2]; simp [hacc]
      obtain ⟨hrl, hrp⟩ := ih acc2 res h hacc2
      refine ⟨hrl, ?_⟩
      intro pr hpr
      rcases hrp pr hpr with hin | ⟨lvl', hlvl', hrest⟩
      · have hzip : acc2.1.zip acc2.2 =
            acc.1.zip acc.2 ++ news.zip (List.replicate news.length (gray_color lvl)) := by
          rw [h1, h2]; exact List.zip_append hacc
        rw [hzip] at hin
        rcases List.mem_append.mp hin with hin1 | hin2
        · exact Or.inl hin1
        · obtain ⟨hm, hcol⟩ := mem_zip_replicate hin2
          obtain ⟨hl, raw, hraw, mn, eps, h4, h5, h6, h7⟩ := h3 pr.1 hm
          exact Or.inr ⟨lvl, List.mem_cons_self _ _, hcol, hl, raw, hraw, mn, eps,
            h4, h5, h6, h7⟩
      · exact Or.inr ⟨lvl', List.mem_cons_of_mem _ hlvl', hrest⟩

lemma color_channels_loop_pairs (cv : CV I G M) (p : Params) (img : I) :
    ∀ (chans : List Nat) (acc res : List Contour × List String),
      color_channels_loop cv p img chans acc = .ok res →
      acc.1.length = acc.2.length →
      res.1.length = res.2.length ∧
      ∀ pr ∈ res.1.zip res.2, pr ∈ acc.1.zip acc.2 ∨
        ∃ ch ∈ chans, pr.2 = channel_color ch ∧ 3 ≤ pr.1.length ∧
          ∃ raw ∈ cv.findContours (color_channel_mask cv img ch (p.threshold.getD 80)),
            ∃ mn eps,
              p.minArea = some mn ∧ p.epsilon = some eps ∧ mn ≤ cv.contourArea raw ∧
              pr.1 = cv.approxPolyDP raw (eps * cv.arcLength raw * (1 / 100)) := by
  intro chans
  induction chans with
  | nil =>
    intro acc res h hacc
    simp only [color_channels_loop] at h
    cases h
    exact ⟨hacc, fun pr hpr => Or.inl hpr⟩
  | cons ch rest ih =>
    intro acc res h hacc
    rw [color_channels_loop] at h
    cases hcf : contour_filter_loop cv p (channel_color ch)
        (cv.findContours (color_channel_mask cv img ch (p.threshold.getD 80))) acc with
    | error e => rw [hcf] at h; cases h
    | ok acc2 =>
      rw [hcf] at h
      simp only at h
      obtain ⟨news, h1, h2, h3⟩ := contour_filter_loop_ok cv p (channel_color ch) _ _ _ hcf
      have hacc2 : acc2.1.length = acc2.2.length := by
        rw [h1, h2]; simp [hacc]
      obtain ⟨hrl, hrp⟩ := ih acc2 res h hacc2
      refine ⟨hrl, ?_⟩
      intro pr hpr
      rcases hrp pr hpr with hin | ⟨ch', hch', hrest⟩
      · have hzip : acc2.1.zip acc2.2 =
            acc.1.zip acc.2 ++ news.zip (List.replicate news.length (channel_color ch)) := by
          rw [h1, h2]; exact List.zip_append hacc
        rw [hzip] at hin
        rcases List.mem_append.mp hin with hin1 | hin2
        · exact Or.inl hin1
        · obtain ⟨hm, hcol⟩ := mem_zip_replicate hin2
          obtain ⟨hl, raw, hraw, mn, eps, h4, h5, h6, h7⟩ := h3 pr.1 hm
          exact Or.inr ⟨ch, List.mem_cons_self _ _, hcol, hl, raw, hraw, mn, eps,
            h4, h5, h6, h7⟩
      · exact Or.inr ⟨ch', List.mem_cons_of_mem _ hch', hrest⟩

/-! Section: Destructuring a successful `process_image` run -/

@[simp] lemma mk_proc_out_width (w h : Nat) (cl : List Contour) (cols pre : List String) :
    (mk_proc_out w h cl cols pre).width = w := rfl

@[simp] lemma mk_proc_out_height (w h : Nat) (cl : List Contour) (cols pre : List String) :
    (mk_proc_out w h cl cols pre).height = h := rfl

@[simp] lemma mk_proc_out_contours (w h : Nat) (cl : List Contour) (cols pre : List String) :
    (mk_proc_out w h cl cols pre).contours_list = cl := rfl

@[simp] lemma mk_proc_out_colors (w h : Nat) (cl : List Contour) (cols pre : List String) :
    (mk_proc_out w h cl cols pre).colors = cols := rfl

@[simp] lemma mk_proc_out_path_elems (w h : Nat) (cl : List Contour) (cols pre : List String) :
    (mk_proc_out w h cl cols pre).path_elems =
      (cl.zip cols).filterMap (fun pr => mk_path_elem pr.1 pr.2) := rfl

@[simp] lemma mk_proc_out_svg (w h : Nat) (cl : List Contour) (cols pre : List String) :
    (mk_proc_out w h cl cols pre).svg_content =
      svg_header w h ++
        String.join (((cl.zip cols).filterMap (fun pr => mk_path_elem pr.1 pr.2)).map
          (fun e => path_elem_string e.1 e.2)) ++ "</svg>" := rfl

@[simp] lemma mk_proc_out_stats (w h : Nat) (cl : List Contour) (cols pre : List String) :
    (mk_proc_out w h cl cols pre).stats_line = stats_string cl := rfl

@[simp] lemma mk_proc_out_stdout (w h : Nat) (cl : List Contour) (cols pre : List String) :
    (mk_proc_out w h cl cols pre).stdout_lines = pre ++ [stats_string cl] := rfl

lemma process_image_ok_cases (cv : CV I G M) (inp outp : String) (p : Params) (out : ProcOut)
    (h : process_image cv inp outp p = .ok out) :
    ∃ img, cv.imread inp = some img ∧
    ∃ mode, p.colorMode = some mode ∧
    ((mode = "binary" ∧ ∃ acc,
        contour_filter_loop cv p "#000000"
          (cv.findContours (binary_combined_mask cv
            (cv.equalizeHist (cv.cvtColor_gray (blurred cv p img))) (p.threshold.getD 80)))
          ([], []) = .ok acc ∧
        out = mk_proc_out (cv.shape img).2 (cv.shape img).1 acc.1 acc.2
          [proc_line (cv.shape img).2 (cv.shape img).1,
           found_line (cv.findContours (binary_combined_mask cv
             (cv.equalizeHist (cv.cvtColor_gray (blurred cv p img)))
             (p.threshold.getD 80))).length,
           kept_line acc.1.length]) ∨
     (mode = "grayscale" ∧ ∃ acc,
        grayscale_levels_loop cv p (cv.equalizeHist (cv.cvtColor_gray (blurred cv p img)))
          [32, 64, 96, 128, 160, 192, 224] ([], []) = .ok acc ∧
        out = mk_proc_out (cv.shape img).2 (cv.shape img).1 acc.1 acc.2
          [proc_line (cv.shape img).2 (cv.shape img).1]) ∨
     (mode = "color" ∧ ∃ acc,
        color_channels_loop cv p (blurred cv p img) [0, 1, 2] ([], []) = .ok acc ∧
        out = mk_proc_out (cv.shape img).2 (cv.shape img).1 acc.1 acc.2
          [proc_line (cv.shape img).2 (cv.shape img).1]) ∨
     (mode ≠ "binary" ∧ mode ≠ "grayscale" ∧ mode ≠ "color" ∧
        out = mk_proc_out (cv.shape img).2 (cv.shape img).1 [] []
          [proc_line (cv.shape img).2 (cv.shape img).1])) := by
  rw [process_image] at h
  cases himg : cv.imread inp with
  | none => rw [himg] at h; cases h
  | some img =>
    rw [himg] at h
    simp only at h
    refine ⟨img, rfl, ?_⟩
    cases hmode : p.colorMode with
    | none => rw [hmode] at h; cases h
    | some mode =>
      rw [hmode] at h
      simp only at h
      refine ⟨mode, rfl, ?_⟩
      by_cases hb : mode = "binary"
      · rw [if_pos hb] at h
        cases hcf : contour_filter_loop cv p "#000000"
            (cv.findContours (binary_combined_mask cv
              (cv.equalizeHist (cv.cvtColor_gray (blurred cv p img)))
              (p.threshold.getD 80))) ([], []) with
        | error e => rw [hcf] at h; cases h
        | ok acc =>
          rw [hcf] at h
          simp only at h
          cases h
          exact Or.inl ⟨hb, acc, rfl, rfl⟩
      · rw [if_neg hb] at h
        by_cases hg : mode = "grayscale"
        · rw [if_pos hg] at h
          cases hgl : grayscale_levels_loop cv p
              (cv.equalizeHist (cv.cvtColor_gray (blurred cv p img)))
              [32, 64, 96, 128, 160, 192, 224] ([], []) with
          | error e => rw [hgl] at h; cases h
          | ok acc =>
            rw [hgl] at h
            simp only at h
            cases h
            exact Or.inr (Or.inl ⟨hg, acc, rfl, rfl⟩)
        · rw [if_neg hg] at h
          by_cases hc : mode = "color"
          · rw [if_pos hc] at h
            cases hcl : color_channels_loop cv p (blurred cv p img) [0, 1, 2] ([], []) with
            | error e => rw [hcl] at h; cases h
            | ok acc =>
              rw [hcl] at h
              simp only at h
              cases h
              exact Or.inr (Or.inr (Or.inl ⟨hc, acc, rfl, rfl⟩))
          · rw [if_neg hc] at h
            cases h
            exact Or.inr (Or.inr (Or.inr ⟨hb, hg, hc, rfl⟩))

/-- Retention invariant: on every successful run, the colour list and
the contour list have equal length, and every retained contour has at
least 3 vertices and is the `approxPolyDP`-simplification of some raw
contour whose (pre-simplification) area passed the `minArea` test. -/
lemma process_image_ok_inv (cv : CV I G M) (inp outp : String) (p : Params) (out : ProcOut)
    (h : process_image cv inp outp p = .ok out) :
    out.colors.length = out.contours_list.length ∧
    ∀ c ∈ out.contours_list, 3 ≤ c.length ∧
      ∃ mn eps raw, p.minArea = some mn ∧ p.epsilon = some eps ∧
        mn ≤ cv.contourArea raw ∧
        c = cv.approxPolyDP raw (eps * cv.arcLength raw * (1 / 100)) := by
  obtain ⟨img, himg, mode, hmode, hcase⟩ := process_image_ok_cases cv inp outp p out h
  rcases hcase with ⟨hm, acc, hloop, hout⟩ | ⟨hm, acc, hloop, hout⟩ |
    ⟨hm, acc, hloop, hout⟩ | ⟨hm1, hm2, hm3, hout⟩
  · obtain ⟨news, h1, h2, h3⟩ := contour_filter_loop_ok cv p "#000000" _ _ _ hloop
    subst hout
    simp only [mk_proc_out_contours, mk_proc_out_colors]
    rw [h1, h2]
    constructor
    · simp
    · intro c hc
      simp only [List.nil_append] at hc
      obtain ⟨hl, raw, _, mn, eps, h4, h5, h6, h7⟩ := h3 c hc
      exact ⟨hl, mn, eps, raw, h4, h5, h6, h7⟩
  · obtain ⟨hrl, hrp⟩ := grayscale_levels_loop_pairs cv p _ _ _ _ hloop rfl
    subst hout
    simp only [mk_proc_out_contours, mk_proc_out_colors]
    refine ⟨hrl.symm, ?_⟩
    intro c hc
    obtain ⟨d, hd⟩ := exists_pair_of_mem hrl c hc
    rcases hrp (c, d) hd with hin | ⟨lvl, _, _, hl, raw, _, mn, eps, h4, h5, h6, h7⟩
    · simp at hin
    · exact ⟨hl, mn, eps, raw, h4, h5, h6, h7⟩
  · obtain ⟨hrl, hrp⟩ := color_channels_loop_pairs cv p _ _ _ _ hloop rfl
    subst hout
    simp only [mk_proc_out_contours, mk_proc_out_colors]
    refine ⟨hrl.symm, ?_⟩
    intro c hc
    obtain ⟨d, hd⟩ := exists_pair_of_mem hrl c hc
    rcases hrp (c, d) hd with hin | ⟨ch, _, _, hl, raw, _, mn, eps, h4, h5, h6, h7⟩
    · simp at hin
    · exact ⟨hl, mn, eps, raw, h4, h5, h6, h7⟩
  · subst hout
    simp

lemma filterMap_eq_map_of_forall_some {α β : Type} (f : α → Option β) (g : α → β) :
    ∀ l : List α, (∀ x ∈ l, f x = some (g x)) → l.filterMap f = l.map g := by
  intro l
  induction l with
  | nil => intro _; rfl
  | cons a rest ih =>
    intro hf
    rw [List.filterMap_cons, hf a (List.mem_cons_self _ _), List.map_cons,
      ih (fun x hx => hf x (List.mem_cons_of_mem _ hx))]

/-- On every successful run the written `<path>` elements are exactly
the zipped (contour, colour) pairs — none is skipped, because every
retained contour serializes to a non-empty path string — and the other
output fields have their assembled shapes. -/
lemma process_image_ok_derived (cv : CV I G M) (inp outp : String) (p : Params) (out : ProcOut)
    (h : process_image cv inp outp p = .ok out) :
    out.path_elems =
      (out.contours_list.zip out.colors).map (fun pr => (create_svg_path pr.1 1 1, pr.2)) ∧
    out.path_elems.length = out.contours_list.length ∧
    out.stats_line = stats_string out.contours_list ∧
    out.svg_content = svg_header out.width out.height ++
      String.join (out.path_elems.map (fun e => path_elem_string e.1 e.2)) ++ "</svg>" := by
  obtain ⟨hlen, hmem⟩ := process_image_ok_inv cv inp outp p out h
  have hpe : out.path_elems =
      (out.contours_list.zip out.colors).map (fun pr => (create_svg_path pr.1 1 1, pr.2)) := by
    obtain ⟨img, himg, mode, hmode, hcase⟩ := process_image_ok_cases cv inp outp p out h
    have key : ∀ (w hgt : Nat) (cl : List Contour) (cols pre : List String),
        out = mk_proc_out w hgt cl cols pre →
        out.path_elems =
          (out.contours_list.zip out.colors).map (fun pr => (create_svg_path pr.1 1 1, pr.2)) := by
      intro w hgt cl cols pre hout
      subst hout
      simp only [mk_proc_out_path_elems, mk_proc_out_contours, mk_proc_out_colors]
      apply filterMap_eq_map_of_forall_some
      intro pr hpr
      have hin : pr.1 ∈ cl := by
        have := List.of_mem_zip (by simpa using hpr)
        exact this.1
      have h3 : 3 ≤ pr.1.length := by
        have := hmem pr.1 (by simpa using hin)
        exact this.1
      exact mk_path_elem_long pr.1 pr.2 (by omega)
    rcases hcase with ⟨_, acc, _, hout⟩ | ⟨_, acc, _, hout⟩ | ⟨_, acc, _, hout⟩ |
      ⟨_, _, _, hout⟩ <;> exact key _ _ _ _ _ hout
  refine ⟨hpe, ?_, ?_, ?_⟩
  · rw [hpe, List.length_map, List.length_zip, hlen, min_self]
  · obtain ⟨img, himg, mode, hmode, hcase⟩ := process_image_ok_cases cv inp outp p out h
    rcases hcase with ⟨_, acc, _, hout⟩ | ⟨_, acc, _, hout⟩ | ⟨_, acc, _, hout⟩ |
      ⟨_, _, _, hout⟩ <;> (subst hout; simp)
  · obtain ⟨img, himg, mode, hmode, hcase⟩ := process_image_ok_cases cv inp outp p out h
    rcases hcase with ⟨_, acc, _, hout⟩ | ⟨_, acc, _, hout⟩ | ⟨_, acc, _, hout⟩ |
      ⟨_, _, _, hout⟩ <;> (subst hout; simp)

/-- Shape of standard output on a successful run: the progress line,
the two binary-mode count lines when that branch ran, and the
statistics line last. -/
lemma process_image_ok_stdout (cv : CV I G M) (inp outp : String) (p : Params) (out : ProcOut)
    (h : process_image cv inp outp p = .ok out) :
    out.stdout_lines = [proc_line out.width out.height, out.stats_line] ∨
    ∃ n k, out.stdout_lines =
      [proc_line out.width out.height, found_line n, kept_line k, out.stats_line] := by
  obtain ⟨img, himg, mode, hmode, hcase⟩ := process_image_ok_cases cv inp outp p out h
  rcases hcase with ⟨_, acc, _, hout⟩ | ⟨_, acc, _, hout⟩ | ⟨_, acc, _, hout⟩ |
    ⟨_, _, _, hout⟩
  · subst hout
    exact Or.inr ⟨(cv.findContours (binary_combined_mask cv
      (cv.equalizeHist (cv.cvtColor_gray (blurred cv p img))) (p.threshold.getD 80))).length,
      acc.1.length, by simp⟩
  · subst hout; exact Or.inl (by simp)
  · subst hout; exact Or.inl (by simp)
  · subst hout; exact Or.inl (by simp)

/-- Whether `l` begins with the six characters `STATS:`. -/
def starts_with_STATS (l : String) : Bool := l.data.take 6 == "STATS:".data

lemma starts_with_STATS_append (s t : String) (h6 : 6 ≤ s.data.length) :
    starts_with_STATS (s ++ t) = (s.data.take 6 == "STATS:".data) := by
  rw [starts_with_STATS, String.data_append, List.take_append_of_le_length h6]

lemma not_stats_of_ne (l : String) (h : l.data.take 6 ≠ "STATS:".data) :
    starts_with_STATS l = false := by
  rw [starts_with_STATS]
  exact beq_eq_false_iff_ne.mpr h

lemma not_stats_head (l : String) (c : Char) (cs : List Char) (hl : l.data = c :: cs)
    (hc : c ≠ 'S') : starts_with_STATS l = false := by
  apply not_stats_of_ne
  rw [hl, List.take_succ_cons]
  intro heq
  have h0 : some c = some 'S' := by
    have := congrArg List.head? heq
    simpa using this
  exact hc (Option.some.inj h0)

lemma data_head_of_append (s t : String) (c : Char) (cs : List Char) (hs : s.data = c :: cs) :
    ∃ ds, (s ++ t).data = c :: ds :=
  ⟨cs ++ t.data, by rw [String.data_append, hs]; rfl⟩

lemma not_stats_proc_line (w h : Nat) : starts_with_STATS (proc_line w h) = false := by
  rw [proc_line, String.append_assoc, String.append_assoc]
  obtain ⟨ds, hds⟩ :=
    data_head_of_append "Processing image: " _ 'P' ("rocessing image: ".data) (by decide)
  exact not_stats_head _ _ _ hds (by decide)

lemma not_stats_found_line (n : Nat) : starts_with_STATS (found_line n) = false := by
  rw [found_line, String.append_assoc]
  obtain ⟨ds, hds⟩ := data_head_of_append "Found " _ 'F' ("ound ".data) (by decide)
  exact not_stats_head _ _ _ hds (by decide)

lemma not_stats_kept_line (k : Nat) : starts_with_STATS (kept_line k) = false := by
  rw [kept_line, String.append_assoc]
  obtain ⟨ds, hds⟩ := data_head_of_append "Kept " _ 'K' ("ept ".data) (by decide)
  exact not_stats_head _ _ _ hds (by decide)

lemma not_stats_success : starts_with_STATS "Conversion completed successfully" = false := by
  decide

lemma stats_starts_with_STATS (cl : List Contour) :
    starts_with_STATS (stats_string cl) = true := by
  rw [stats_string, String.append_assoc, String.append_assoc,
    starts_with_STATS_append _ _ (by decide)]
  decide

/-- On every successful run, exactly one printed line begins with
`STATS:` — the statistics line itself. -/
lemma stdout_filter_stats (cv : CV I G M) (inp outp : String) (p : Params) (out : ProcOut)
    (h : process_image cv inp outp p = .ok out) :
    (out.stdout_lines ++ ["Conversion completed successfully"]).filter
      (fun l => starts_with_STATS l) = [out.stats_line] := by
  have hstats : starts_with_STATS out.stats_line = true := by
    have := (process_image_ok_derived cv inp outp p out h).2.2.1
    rw [this]
    exact stats_starts_with_STATS _
  rcases process_image_ok_stdout cv inp outp p out h with hso | ⟨n, k, hso⟩
  · rw [hso]
    simp [List.filter_cons, List.filter_append, not_stats_proc_line, not_stats_success, hstats]
  · rw [hso]
    simp [List.filter_cons, List.filter_append, not_stats_proc_line, not_stats_found_line,
      not_stats_kept_line, not_stats_success, hstats]

/-! Section: Error paths and the `main` wrapper -/

lemma process_image_imread_none (cv : CV I G M) (inp outp : String) (p : Params)
    (himg : cv.imread inp = none) :
    process_image cv inp outp p = .error ⟨"Could not read image: " ++ inp⟩ := by
  rw [process_image, himg]

lemma process_image_no_colorMode (cv : CV I G M) (inp outp : String) (p : Params) (img : I)
    (himg : cv.imread inp = some img) (hcm : p.colorMode = none) :
    process_image cv inp outp p = .error (key_error "colorMode") := by
  rw [process_image, himg]
  simp only [hcm]

lemma contour_filter_loop_minArea_error (cv : CV I G M) (p : Params) (color : String)
    (hmn : p.minArea = none) (raws : List Contour) (hne : raws ≠ [])
    (acc : List Contour × List String) :
    contour_filter_loop cv p color raws acc = .error (key_error "minArea") := by
  cases raws with
  | nil => exact absurd rfl hne
  | cons contour rest =>
    rw [contour_filter_loop]
    simp only [hmn]

lemma contour_filter_loop_epsilon_error (cv : CV I G M) (p : Params) (color : String)
    {mn : ℚ} (hmn : p.minArea = some mn) (heps : p.epsilon = none) :
    ∀ (raws : List Contour), (∃ raw ∈ raws, mn ≤ cv.contourArea raw) →
      ∀ acc, contour_filter_loop cv p color raws acc = .error (key_error "epsilon") := by
  intro raws
  induction raws with
  | nil => rintro ⟨raw, hraw, _⟩; cases hraw
  | cons contour rest ih =>
    rintro ⟨raw, hraw, harea⟩ acc
    rw [contour_filter_loop]
    simp only [hmn]
    by_cases hc : mn ≤ cv.contourArea contour
    · rw [if_pos hc]
      simp only [heps]
    · rw [if_neg hc]
      rcases List.mem_cons.mp hraw with rfl | hraw'
      · exact absurd harea hc
      · exact ih ⟨raw, hraw', harea⟩ acc

lemma process_image_binary_error (cv : CV I G M) (inp outp : String) (p : Params) (img : I)
    (e : PyErr) (himg : cv.imread inp = some img) (hcm : p.colorMode = some "binary")
    (hloop : contour_filter_loop cv p "#000000"
      (cv.findContours (binary_combined_mask cv
        (cv.equalizeHist (cv.cvtColor_gray (blurred cv p img))) (p.threshold.getD 80)))
      ([], []) = .error e) :
    process_image cv inp outp p = .error e := by
  rw [process_image, himg]
  simp only [hcm, if_true]
  simp only [hloop]

lemma main_run_args_ok (cv : CV I G M) (jl : String → Except PyErr Params)
    (a0 inp outp js : String) :
    main_run cv jl [a0, inp, outp, js] =
      match jl (py_strip js squote) with
      | .error e => ⟨1, [], ["Error: " ++ e.msg], none⟩
      | .ok params =>
        match process_image cv (py_strip inp dquote) (py_strip outp dquote) params with
        | .error e => ⟨1, [], ["Error: " ++ e.msg], none⟩
        | .ok out =>
          ⟨0, out.stdout_lines ++ ["Conversion completed successfully"], [],
            some (py_strip outp dquote, out.svg_content)⟩ := by
  rw [main_run, if_neg (by simp)]
  simp only [List.getD_cons_succ, List.getD_cons_zero]

lemma main_run_proc_error (cv : CV I G M) (jl : String → Except PyErr Params)
    (a0 inp outp js : String) (p : Params) (e : PyErr)
    (hjl : jl (py_strip js squote) = .ok p)
    (hproc : process_image cv (py_strip inp dquote) (py_strip outp dquote) p = .error e) :
    main_run cv jl [a0, inp, outp, js] = ⟨1, [], ["Error: " ++ e.msg], none⟩ := by
  rw [main_run_args_ok, hjl]
  simp only [hproc]

lemma main_run_proc_ok (cv : CV I G M) (jl : String → Except PyErr Params)
    (a0 inp outp js : String) (p : Params) (out : ProcOut)
    (hjl : jl (py_strip js squote) = .ok p)
    (hproc : process_image cv (py_strip inp dquote) (py_strip outp dquote) p = .ok out) :
    main_run cv jl [a0, inp, outp, js] =
      ⟨0, out.stdout_lines ++ ["Conversion completed successfully"], [],
        some (py_strip outp dquote, out.svg_content)⟩ := by
  rw [main_run_args_ok, hjl]
  simp only [hproc]

/-! Section: Runs in which no mask yields any contour -/

lemma grayscale_levels_loop_empty (cv : CV I G M) (p : Params) (gray : G)
    (hfc : ∀ msk : M, cv.findContours msk = []) :
    ∀ (levels : List Nat) (acc : List Contour × List String),
      grayscale_levels_loop cv p gray levels acc = .ok acc := by
  intro levels
  induction levels with
  | nil => intro acc; rfl
  | cons lvl rest ih =>
    intro acc
    rw [grayscale_levels_loop, hfc]
    simp only [contour_filter_loop]
    exact ih acc

lemma color_channels_loop_empty (cv : CV I G M) (p : Params) (img : I)
    (hfc : ∀ msk : M, cv.findContours msk = []) :
    ∀ (chans : List Nat) (acc : List Contour × List String),
      color_channels_loop cv p img chans acc = .ok acc := by
  intro chans
  induction chans with
  | nil => intro acc; rfl
  | cons ch rest ih =>
    intro ch_acc
    rw [color_channels_loop, hfc]
    simp only [contour_filter_loop]
    exact ih ch_acc

/-- When contour extraction finds nothing in any mask, every branch
retains nothing and the run succeeds without ever reading `minArea` or
`epsilon`. -/
lemma process_image_empty_contours (cv : CV I G M) (inp outp : String) (p : Params)
    (img : I) (m : String) (himg : cv.imread inp = some img)
    (hcm : p.colorMode = some m) (hfc : ∀ msk : M, cv.findContours msk = []) :
    ∃ pre, process_image cv inp outp p =
      .ok (mk_proc_out (cv.shape img).2 (cv.shape img).1 [] [] pre) := by
  rw [process_image, himg]
  simp only [hcm]
  by_cases hb : m = "binary"
  · rw [if_pos hb]
    rw [hfc]
    simp only [contour_filter_loop]
    exact ⟨_, rfl⟩
  · rw [if_neg hb]
    by_cases hg : m = "grayscale"
    · rw [if_pos hg]
      rw [grayscale_levels_loop_empty cv p _ hfc]
      exact ⟨_, rfl⟩
    · rw [if_neg hg]
      by_cases hc : m = "color"
      · rw [if_pos hc]
        rw [color_channels_loop_empty cv p _ hfc]
        exact ⟨_, rfl⟩
      · rw [if_neg hc]
        exact ⟨_, rfl⟩

/-- If `epsilon` is absent, a successful run can have retained nothing
(the `epsilon` lookup would have raised on the first contour that
passed the area test). -/
lemma contours_nil_of_no_epsilon (cv : CV I G M) (inp outp : String) (p : Params)
    (out : ProcOut) (h : process_image cv inp outp p = .ok out)
    (heps : p.epsilon = none) : out.contours_list = [] := by
  cases hc : out.contours_list with
  | nil => rfl
  | cons c rest =>
    obtain ⟨_, hmem⟩ := process_image_ok_inv cv inp outp p out h
    obtain ⟨_, mn, eps, raw, _, hsome, _, _⟩ := hmem c (by rw [hc]; exact List.mem_cons_self _ _)
    rw [heps] at hsome
    cases hsome

lemma blurred_congr (cv : CV I G M) {p1 p2 : Params} (hsm : p1.smooth = p2.smooth) (img : I) :
    blurred cv p1 img = blurred cv p2 img := by
  rw [blurred, blurred, hsm]

/-! Section: Concrete instantiations of the external-library oracle -/

/-- A vision-library behaviour in which no mask ever yields a contour. -/
def cv_empty : CV Unit Unit Unit where
  imread := fun _ => some ()
  shape := fun _ => (10, 20)
  gaussianBlur := fun _ => ()
  cvtColor_gray := fun _ => ()
  equalizeHist := fun _ => ()
  adaptiveThreshold := fun _ => ()
  threshold := fun _ _ => ()
  canny := fun _ _ _ => ()
  bitwise_or := fun _ _ => ()
  morph_close := fun _ => ()
  morph_open := fun _ => ()
  findContours := fun _ => []
  contourArea := fun _ => 0
  arcLength := fun _ => 0
  approxPolyDP := fun c _ => c
  channel := fun _ _ => ()

/-- The shoelace (Gauss) area of a closed polygon — the standard
measure an implementation of `cv2.contourArea` computes. -/
def shoelace (c : Contour) : ℚ :=
  |((c.zip (c.rotate 1)).map
    (fun pr => ((pr.1.1 : ℚ) * pr.2.2 - (pr.2.1 : ℚ) * pr.1.2))).sum| / 2

/-- A pentagon: the square `[0,4]²` with one extra vertex `(2,5)`
bumped out of the top edge; shoelace area 18. -/
def raw_bump : Contour := [(0, 0), (4, 0), (4, 4), (2, 5), (0, 4)]

/-- The square left after the bump vertex is simplified away;
shoelace area 16. -/
def simp_square : Contour := [(0, 0), (4, 0), (4, 4), (0, 4)]

/-- A vision-library behaviour in which every mask yields the bumped
pentagon and polygon simplification drops the bump vertex (which lies
within tolerance of the top edge), shrinking the enclosed area from 18
to 16.  The area oracle tabulates the shoelace areas of the two
polygons that occur (see `shoelace_raw_bump` / `shoelace_simp_square`);
the table form keeps the definition kernel-computable. -/
def cv_area : CV Unit Unit Unit :=
  { cv_empty with
    findContours := fun _ => [raw_bump]
    contourArea := fun c => if c = raw_bump then 18 else if c = simp_square then 16 else 0
    arcLength := fun _ => 1
    approxPolyDP := fun c _ => c.filter (fun pt => pt.2 ≤ 4) }

/-- The tabulated area of the bumped pentagon is its shoelace area. -/
lemma shoelace_raw_bump : shoelace raw_bump = 18 := by
  norm_num [shoelace, raw_bump, List.rotate]

/-- The tabulated area of the simplified square is its shoelace area. -/
lemma shoelace_simp_square : shoelace simp_square = 16 := by
  norm_num [shoelace, simp_square, List.rotate]

lemma cv_area_contourArea_eq_shoelace :
    cv_area.contourArea raw_bump = shoelace raw_bump ∧
    cv_area.contourArea simp_square = shoelace simp_square := by
  rw [shoelace_raw_bump, shoelace_simp_square]
  exact ⟨by decide, by decide⟩

/-- A `json.loads` oracle returning a fixed parameter object. -/
def jl_params (p : Params) : String → Except PyErr Params := fun _ => .ok p

/-- Parameters missing `minArea` and `epsilon` (binary mode). -/
def p_no_min : Params := ⟨some "binary", none, none, none, none⟩

/-- Binary-mode parameters with `minArea 0`, `epsilon 1`. -/
def p_bin0 : Params := ⟨some "binary", some 0, some 1, none, none⟩

/-- Binary-mode parameters with `minArea 17`, `epsilon 1`: the bumped
pentagon (area 18) passes the area test, its simplified square
(area 16) does not reach it. -/
def p_area17 : Params := ⟨some "binary", some 17, some 1, none, none⟩

/-- Parameters whose `colorMode` is present but unrecognized. -/
def p_unknown : Params := ⟨some "x", none, none, none, none⟩

/-- Parameters with no `colorMode` at all. -/
def p_empty : Params := ⟨none, none, none, none, none⟩

/-- Binary-mode parameters with `minArea 0` but no `epsilon`. -/
def p_no_eps : Params := ⟨some "binary", some 0, none, none, none⟩

/-- The result of the counterexample run (binary mode, `cv_area`,
`minArea 17`). -/
def out_area17 : ProcOut :=
  match process_image cv_area "in.png" "out.svg" p_area17 with
  | .ok o => o
  | .error _ => default

/-- The result of a `cv_empty` binary run. -/
def out_bin0 : ProcOut :=
  match process_image cv_empty "in.png" "out.svg" p_bin0 with
  | .ok o => o
  | .error _ => default

/-! Section: The claims -/

/-- Claim C4. For every vertex sequence with at least 3 vertices the
serializer emits exactly one `M` command, exactly `n-1` `L` commands
and a terminating ` Z`, with `n` coordinate pairs in the string (the
rendered coordinates are decimal digits, so the `M`/`L` counts are
command counts); for fewer than 3 vertices it returns the empty string
and the writer produces no `<path>` element for such a shape. -/
theorem claim_C4 (pts : List Point) (col : String) :
    (3 ≤ pts.length →
      (create_svg_path pts 1 1).data.count 'M' = 1 ∧
      (create_svg_path pts 1 1).data.count 'L' = pts.length - 1 ∧
      (∃ s, create_svg_path pts 1 1 = s ++ " Z") ∧
      (create_svg_path pts 1 1).data.count 'M' + (create_svg_path pts 1 1).data.count 'L' =
        pts.length) ∧
    (pts.length < 3 → create_svg_path pts 1 1 = "" ∧ mk_path_elem pts col = none) := by
  constructor
  · intro h3
    cases pts with
    | nil => simp at h3
    | cons p0 rest =>
      have hn : ¬(p0 :: rest).length < 3 := by omega
      refine ⟨create_svg_path_count_M p0 rest hn, ?_, create_svg_path_ends_Z _ hn, ?_⟩
      · rw [create_svg_path_count_L p0 rest hn]
        simp
      · rw [create_svg_path_count_M p0 rest hn, create_svg_path_count_L p0 rest hn]
        simp [Nat.add_comm]
  · intro hlt
    exact ⟨create_svg_path_short pts hlt, mk_path_elem_short pts col hlt⟩

theorem claim_C4_witness :
    ((create_svg_path simp_square 1 1).data.count 'M' = 1 ∧
      (create_svg_path simp_square 1 1).data.count 'L' = simp_square.length - 1 ∧
      (∃ s, create_svg_path simp_square 1 1 = s ++ " Z") ∧
      (create_svg_path simp_square 1 1).data.count 'M' +
        (create_svg_path simp_square 1 1).data.count 'L' = simp_square.length) ∧
    (create_svg_path [] 1 1 = "" ∧ mk_path_elem [] "#000000" = none) :=
  ⟨(claim_C4 simp_square "#000000").1 (by decide), (claim_C4 [] "#000000").2 (by decide)⟩

/-- Claim C2, amended.  Every retained shape has at least 3 vertices
after simplification and is the simplification of a raw contour whose
enclosed area passed the `minArea` test — the area test is applied to
the raw contour *before* simplification, so the retained polygon's own
area can be below `minArea` (see the counterexample). -/
theorem claim_C2_amended {I G M : Type} (cv : CV I G M) (inp outp : String) (p : Params)
    (out : ProcOut) (h : process_image cv inp outp p = .ok out) :
    ∀ c ∈ out.contours_list, 3 ≤ c.length ∧
      ∃ mn eps raw, p.minArea = some mn ∧ p.epsilon = some eps ∧
        mn ≤ cv.contourArea raw ∧
        c = cv.approxPolyDP raw (eps * cv.arcLength raw * (1 / 100)) :=
  (process_image_ok_inv cv inp outp p out h).2

theorem claim_C2_amended_witness : 3 ≤ simp_square.length :=
  (claim_C2_amended cv_area "in.png" "out.svg" p_area17 out_area17 rfl
    simp_square (by decide)).1

/-- Claim C2 counterexample.  With `minArea = 17`, the raw pentagon
(area 18) passes the area test, its simplification is the square of
area 16 — a retained shape whose enclosed area is *below* the
configured minimum, refuting the claim as stated. -/
theorem claim_C2_counterexample :
    p_area17.minArea = some 17 ∧
    process_image cv_area "in.png" "out.svg" p_area17 = .ok out_area17 ∧
    simp_square ∈ out_area17.contours_list ∧
    cv_area.contourArea simp_square < 17 :=
  ⟨rfl, rfl, by decide, by decide⟩

/-- Claim C3, amended.  A missing `colorMode` always aborts the run with
exit code 1 and `Error: 'colorMode'` on standard error; a missing
`minArea` (resp. `epsilon`) aborts with the corresponding message only
when the filtering loop actually reaches the lookup — i.e. when at
least one contour was extracted (resp. at least one extracted contour
passed the area test).  Stated here for the binary branch, which the
spec's end-to-end scenario exercises. -/
theorem claim_C3_amended {I G M : Type} (cv : CV I G M)
    (jl : String → Except PyErr Params) (a0 inp outp js : String) (p : Params) (img : I)
    (hjl : jl (py_strip js squote) = .ok p)
    (himg : cv.imread (py_strip inp dquote) = some img) :
    (p.colorMode = none →
      main_run cv jl [a0, inp, outp, js] = ⟨1, [], ["Error: 'colorMode'"], none⟩) ∧
    (p.colorMode = some "binary" → p.minArea = none →
      cv.findContours (binary_combined_mask cv
        (cv.equalizeHist (cv.cvtColor_gray (blurred cv p img))) (p.threshold.getD 80)) ≠ [] →
      main_run cv jl [a0, inp, outp, js] = ⟨1, [], ["Error: 'minArea'"], none⟩) ∧
    (p.colorMode = some "binary" → p.epsilon = none →
      (∃ mn, p.minArea = some mn ∧
        ∃ raw ∈ cv.findContours (binary_combined_mask cv
          (cv.equalizeHist (cv.cvtColor_gray (blurred cv p img))) (p.threshold.getD 80)),
          mn ≤ cv.contourArea raw) →
      main_run cv jl [a0, inp, outp, js] = ⟨1, [], ["Error: 'epsilon'"], none⟩) := by
  refine ⟨?_, ?_, ?_⟩
  · intro hcm
    exact main_run_proc_error cv jl a0 inp outp js p _ hjl
      (process_image_no_colorMode cv _ _ p img himg hcm)
  · intro hcm hmn hne
    exact main_run_proc_error cv jl a0 inp outp js p _ hjl
      (process_image_binary_error cv _ _ p img _ himg hcm
        (contour_filter_loop_minArea_error cv p _ hmn _ hne _))
  · rintro hcm heps ⟨mn, hmn, raw, hraw, harea⟩
    exact main_run_proc_error cv jl a0 inp outp js p _ hjl
      (process_image_binary_error cv _ _ p img _ himg hcm
        (contour_filter_loop_epsilon_error cv p _ hmn heps _ ⟨raw, hraw, harea⟩ _))

theorem claim_C3_amended_witness :
    main_run cv_empty (jl_params p_empty) ["prog", "in.png", "out.svg", "{}"] =
      ⟨1, [], ["Error: 'colorMode'"], none⟩ ∧
    main_run cv_area (jl_params p_no_min) ["prog", "in.png", "out.svg", "{}"] =
      ⟨1, [], ["Error: 'minArea'"], none⟩ ∧
    main_run cv_area (jl_params p_no_eps) ["prog", "in.png", "out.svg", "{}"] =
      ⟨1, [], ["Error: 'epsilon'"], none⟩ :=
  ⟨(claim_C3_amended cv_empty (jl_params p_empty) "prog" "in.png" "out.svg" "{}" p_empty ()
      rfl rfl).1 rfl,
   (claim_C3_amended cv_area (jl_params p_no_min) "prog" "in.png" "out.svg" "{}" p_no_min ()
      rfl rfl).2.1 rfl rfl (by decide),
   (claim_C3_amended cv_area (jl_params p_no_eps) "prog" "in.png" "out.svg" "{}" p_no_eps ()
      rfl rfl).2.2 rfl rfl ⟨0, rfl, raw_bump, by decide, by decide⟩⟩

/-- Claim C3 counterexample.  The claim as stated is false: with
`colorMode` present and no contour extracted, a parameter object
lacking both `minArea` and `epsilon` completes with exit code 0 —
those keys are read only inside the per-contour loop bodies. -/
theorem claim_C3_counterexample :
    p_no_min.minArea = none ∧ p_no_min.epsilon = none ∧
    (main_run cv_empty (jl_params p_no_min)
      ["prog", "in.png", "out.svg", "{}"]).exitCode = 0 :=
  ⟨rfl, rfl, by decide⟩

/-- Claim C6.  When the image cannot be read, the run aborts before any
processing with `Error: Could not read image: <path>` on standard
error, exit code 1 and no output file written. -/
theorem claim_C6 {I G M : Type} (cv : CV I G M) (jl : String → Except PyErr Params)
    (a0 inp outp js : String) (p : Params)
    (hjl : jl (py_strip js squote) = .ok p)
    (himg : cv.imread (py_strip inp dquote) = none) :
    main_run cv jl [a0, inp, outp, js] =
      ⟨1, [], ["Error: Could not read image: " ++ py_strip inp dquote], none⟩ :=
  main_run_proc_error cv jl a0 inp outp js p _ hjl
    (process_image_imread_none cv _ _ p himg)

/-- A vision-library behaviour in which no path is a readable image. -/
def cv_none : CV Unit Unit Unit := { cv_empty with imread := fun _ => none }

theorem claim_C6_witness :
    main_run cv_none (jl_params p_bin0) ["prog", "in.png", "out.svg", "{}"] =
      ⟨1, [], ["Error: Could not read image: " ++ py_strip "in.png" dquote], none⟩ :=
  claim_C6 cv_none (jl_params p_bin0) "prog" "in.png" "out.svg" "{}" p_bin0 rfl rfl

/-- Claim C8.  A present but unrecognized `colorMode` raises no error: no
segmentation branch runs, no shape is retained, an SVG with zero
`<path>` elements is still written, the statistics line reads
`STATS:contours=0,points=0`, and the process exits 0. -/
theorem claim_C8 {I G M : Type} (cv : CV I G M) (jl : String → Except PyErr Params)
    (a0 inp outp js : String) (p : Params) (m : String) (img : I)
    (hjl : jl (py_strip js squote) = .ok p)
    (hcm : p.colorMode = some m)
    (hm1 : m ≠ "binary") (hm2 : m ≠ "grayscale") (hm3 : m ≠ "color")
    (himg : cv.imread (py_strip inp dquote) = some img) :
    ∃ out, process_image cv (py_strip inp dquote) (py_strip outp dquote) p = .ok out ∧
      out.contours_list = [] ∧ out.path_elems = [] ∧
      out.stats_line = "STATS:contours=0,points=0" ∧
      out.svg_content = svg_header (cv.shape img).2 (cv.shape img).1 ++ "</svg>" ∧
      main_run cv jl [a0, inp, outp, js] =
        ⟨0, [proc_line (cv.shape img).2 (cv.shape img).1, "STATS:contours=0,points=0",
             "Conversion completed successfully"], [],
          some (py_strip outp dquote, out.svg_content)⟩ := by
  have hproc : process_image cv (py_strip inp dquote) (py_strip outp dquote) p =
      .ok (mk_proc_out (cv.shape img).2 (cv.shape img).1 [] []
        [proc_line (cv.shape img).2 (cv.shape img).1]) := by
    rw [process_image, himg]
    simp only [hcm]
    rw [if_neg hm1, if_neg hm2, if_neg hm3]
  have hstats0 : stats_string [] = "STATS:contours=0,points=0" := by decide
  have hsvg0 : (mk_proc_out (cv.shape img).2 (cv.shape img).1 [] []
      [proc_line (cv.shape img).2 (cv.shape img).1]).svg_content =
      svg_header (cv.shape img).2 (cv.shape img).1 ++ "</svg>" := by
    rw [mk_proc_out_svg]
    simp only [List.zip_nil_left, List.filterMap_nil, List.map_nil]
    rw [show String.join [] = "" from rfl, String.append_empty]
  refine ⟨_, hproc, rfl, ?_, ?_, hsvg0, ?_⟩
  · simp
  · rw [mk_proc_out_stats, hstats0]
  · rw [main_run_proc_ok cv jl a0 inp outp js p _ hjl hproc]
    rw [mk_proc_out_stdout, hstats0]
    rfl

theorem claim_C8_witness :
    ∃ out, process_image cv_empty (py_strip "in.png" dquote) (py_strip "out.svg" dquote)
        p_unknown = .ok out ∧
      out.contours_list = [] ∧ out.path_elems = [] ∧
      out.stats_line = "STATS:contours=0,points=0" ∧
      out.svg_content = svg_header 20 10 ++ "</svg>" ∧
      main_run cv_empty (jl_params p_unknown) ["prog", "in.png", "out.svg", "{}"] =
        ⟨0, [proc_line 20 10, "STATS:contours=0,points=0",
             "Conversion completed successfully"], [],
          some (py_strip "out.svg" dquote, out.svg_content)⟩ :=
  claim_C8 cv_empty (jl_params p_unknown) "prog" "in.png" "out.svg" "{}" p_unknown "x" ()
    rfl rfl (by decide) (by decide) (by decide) rfl

/-- Claim C10.  `minArea` and `epsilon` are read only inside the
per-contour loops, so on any run where every mask yields an empty
contour list (with `colorMode` present, matched or not) the program
writes the SVG and exits 0 even though both keys are absent. -/
theorem claim_C10 {I G M : Type} (cv : CV I G M) (jl : String → Except PyErr Params)
    (a0 inp outp js : String) (p : Params) (m : String) (img : I)
    (hjl : jl (py_strip js squote) = .ok p)
    (hcm : p.colorMode = some m)
    (himg : cv.imread (py_strip inp dquote) = some img)
    (hfc : ∀ msk : M, cv.findContours msk = [])
    (hmn : p.minArea = none) (heps : p.epsilon = none) :
    (main_run cv jl [a0, inp, outp, js]).exitCode = 0 ∧
    (main_run cv jl [a0, inp, outp, js]).fileWritten =
      some (py_strip outp dquote,
        svg_header (cv.shape img).2 (cv.shape img).1 ++ "</svg>") := by
  obtain ⟨pre, hproc⟩ := process_image_empty_contours cv _ _ p img m himg hcm hfc
  rw [main_run_proc_ok cv jl a0 inp outp js p _ hjl hproc]
  refine ⟨rfl, ?_⟩
  rw [mk_proc_out_svg]
  simp only [List.zip_nil_left, List.filterMap_nil, List.map_nil]
  rw [show String.join [] = "" from rfl, String.append_empty]

theorem claim_C10_witness :
    (main_run cv_empty (jl_params p_no_min) ["prog", "in.png", "out.svg", "{}"]).exitCode = 0 ∧
    (main_run cv_empty (jl_params p_no_min) ["prog", "in.png", "out.svg", "{}"]).fileWritten =
      some (py_strip "out.svg" dquote, svg_header 20 10 ++ "</svg>") :=
  claim_C10 cv_empty (jl_params p_no_min) "prog" "in.png" "out.svg" "{}" p_no_min "binary" ()
    rfl rfl rfl (fun _ => rfl) rfl rfl

/-- Claim C1.  On every run that reaches the writer, exactly one stdout
line has the `STATS:` form, it reports `contours=` equal to the number
of `<path>` elements written and `points=` equal to the total vertex
count over the retained shapes, and the run exits 0 after writing the
SVG. -/
theorem claim_C1 {I G M : Type} (cv : CV I G M) (jl : String → Except PyErr Params)
    (a0 inp outp js : String) (p : Params) (out : ProcOut)
    (hjl : jl (py_strip js squote) = .ok p)
    (hproc : process_image cv (py_strip inp dquote) (py_strip outp dquote) p = .ok out) :
    out.path_elems.length = out.contours_list.length ∧
    (main_run cv jl [a0, inp, outp, js]).stdout.filter (fun l => starts_with_STATS l) =
      ["STATS:contours=" ++ toString out.path_elems.length ++ ",points=" ++
        toString ((out.contours_list.map List.length).sum)] ∧
    (main_run cv jl [a0, inp, outp, js]).exitCode = 0 ∧
    (main_run cv jl [a0, inp, outp, js]).fileWritten =
      some (py_strip outp dquote, out.svg_content) := by
  obtain ⟨hpe, hlen, hstat, hsvg⟩ := process_image_ok_derived cv _ _ p out hproc
  rw [main_run_proc_ok cv jl a0 inp outp js p out hjl hproc]
  refine ⟨hlen, ?_, rfl, rfl⟩
  have hf := stdout_filter_stats cv _ _ p out hproc
  rw [hf, hstat, hlen, stats_string]

theorem claim_C1_witness :
    out_bin0.path_elems.length = out_bin0.contours_list.length ∧
    (main_run cv_empty (jl_params p_bin0)
        ["prog", "in.png", "out.svg", "{}"]).stdout.filter (fun l => starts_with_STATS l) =
      ["STATS:contours=" ++ toString out_bin0.path_elems.length ++ ",points=" ++
        toString ((out_bin0.contours_list.map List.length).sum)] ∧
    (main_run cv_empty (jl_params p_bin0) ["prog", "in.png", "out.svg", "{}"]).exitCode = 0 ∧
    (main_run cv_empty (jl_params p_bin0) ["prog", "in.png", "out.svg", "{}"]).fileWritten =
      some (py_strip "out.svg" dquote, out_bin0.svg_content) :=
  claim_C1 cv_empty (jl_params p_bin0) "prog" "in.png" "out.svg" "{}" p_bin0 out_bin0 rfl rfl

/-- Claim C7.  The SVG root `width`, `height` and `viewBox` always carry
the decoded image's pixel dimensions: they are read from the image
before the optional Gaussian blur, so this holds whatever `smooth`
does to the image. -/
theorem claim_C7 {I G M : Type} (cv : CV I G M) (inp outp : String) (p : Params)
    (out : ProcOut) (img : I)
    (himg : cv.imread inp = some img)
    (hproc : process_image cv inp outp p = .ok out) :
    out.width = (cv.shape img).2 ∧ out.height = (cv.shape img).1 ∧
    out.svg_content = svg_header (cv.shape img).2 (cv.shape img).1 ++
      String.join (out.path_elems.map (fun e => path_elem_string e.1 e.2)) ++ "</svg>" := by
  obtain ⟨img', himg', mode, hmode, hcase⟩ := process_image_ok_cases cv inp outp p out hproc
  have himg12 : img' = img := by
    rw [himg] at himg'
    exact (Option.some.inj himg').symm
  subst himg12
  obtain ⟨_, _, _, hsvg⟩ := process_image_ok_derived cv inp outp p out hproc
  have hw : out.width = (cv.shape img').2 ∧ out.height = (cv.shape img').1 := by
    rcases hcase with ⟨_, acc, _, hout⟩ | ⟨_, acc, _, hout⟩ | ⟨_, acc, _, hout⟩ |
      ⟨_, _, _, hout⟩ <;> (subst hout; exact ⟨rfl, rfl⟩)
  refine ⟨hw.1, hw.2, ?_⟩
  rw [hsvg, hw.1, hw.2]

theorem claim_C7_witness :
    out_bin0.width = 20 ∧ out_bin0.height = 10 ∧
    out_bin0.svg_content = svg_header 20 10 ++
      String.join (out_bin0.path_elems.map (fun e => path_elem_string e.1 e.2)) ++ "</svg>" :=
  claim_C7 cv_empty "in.png" "out.svg" p_bin0 out_bin0 () rfl rfl

/-- Claim C9.  The contour and colour lists always have equal length,
each written `<path>` element carries the colour its zip partner
supplied, and that colour is exactly the one assigned by the branch
that produced the contour: `#000000` in binary mode, the
`rgb(255-level,…)` gray of the originating threshold level in
grayscale mode, and the pure channel colour of the originating channel
in colour mode. -/
theorem claim_C9 {I G M : Type} (cv : CV I G M) (inp outp : String) (p : Params)
    (out : ProcOut) (img : I)
    (himg : cv.imread inp = some img)
    (hproc : process_image cv inp outp p = .ok out) :
    out.colors.length = out.contours_list.length ∧
    out.path_elems.map Prod.snd = out.colors ∧
    ∀ pr ∈ out.contours_list.zip out.colors,
      (p.colorMode = some "binary" → pr.2 = "#000000") ∧
      (p.colorMode = some "grayscale" →
        ∃ lvl ∈ [32, 64, 96, 128, 160, 192, 224], pr.2 = gray_color lvl ∧
          ∃ raw ∈ cv.findContours (gray_level_mask cv
            (cv.equalizeHist (cv.cvtColor_gray (blurred cv p img))) lvl),
            ∃ mn eps, p.minArea = some mn ∧ p.epsilon = some eps ∧
              mn ≤ cv.contourArea raw ∧
              pr.1 = cv.approxPolyDP raw (eps * cv.arcLength raw * (1 / 100))) ∧
      (p.colorMode = some "color" →
        ∃ ch ∈ [0, 1, 2], pr.2 = channel_color ch ∧
          ∃ raw ∈ cv.findContours (color_channel_mask cv (blurred cv p img) ch
            (p.threshold.getD 80)),
            ∃ mn eps, p.minArea = some mn ∧ p.epsilon = some eps ∧
              mn ≤ cv.contourArea raw ∧
              pr.1 = cv.approxPolyDP raw (eps * cv.arcLength raw * (1 / 100))) := by
  obtain ⟨hlen, _⟩ := process_image_ok_inv cv inp outp p out hproc
  obtain ⟨hpe, _, _, _⟩ := process_image_ok_derived cv _ _ p out hproc
  have hsnd : out.path_elems.map Prod.snd = out.colors := by
    have h1 : out.path_elems.map Prod.snd =
        (out.contours_list.zip out.colors).map Prod.snd := by
      rw [hpe, List.map_map]
      rfl
    rw [h1, List.map_snd_zip _ _ (le_of_eq hlen)]
  refine ⟨hlen, hsnd, ?_⟩
  obtain ⟨img', himg', mode, hmode, hcase⟩ := process_image_ok_cases cv inp outp p out hproc
  have himg12 : img' = img := by
    rw [himg] at himg'
    exact (Option.some.inj himg').symm
  subst himg12
  rcases hcase with ⟨hm, acc, hloop, hout⟩ | ⟨hm, acc, hloop, hout⟩ |
    ⟨hm, acc, hloop, hout⟩ | ⟨hm1, hm2, hm3, hout⟩
  · -- binary branch
    subst hout hm
    obtain ⟨news, h1, h2, h3⟩ := contour_filter_loop_ok cv p "#000000" _ _ _ hloop
    simp only [mk_proc_out_contours, mk_proc_out_colors]
    intro pr hpr
    rw [h1, h2] at hpr
    simp only [List.nil_append] at hpr
    have hz : news.zip (List.replicate news.length "#000000") = news.zip
        (List.replicate news.length "#000000") := rfl
    obtain ⟨hm', hcol⟩ := mem_zip_replicate hpr
    refine ⟨fun _ => hcol, ?_, ?_⟩
    · intro hgray
      rw [hmode] at hgray
      exact absurd (Option.some.inj hgray) (by decide)
    · intro hcolor
      rw [hmode] at hcolor
      exact absurd (Option.some.inj hcolor) (by decide)
  · -- grayscale branch
    subst hout hm
    obtain ⟨hrl, hrp⟩ := grayscale_levels_loop_pairs cv p _ _ _ _ hloop rfl
    simp only [mk_proc_out_contours, mk_proc_out_colors]
    intro pr hpr
    rcases hrp pr hpr with hin | ⟨lvl, hlvl, hcol, _, raw, hraw, mn, eps, h4, h5, h6, h7⟩
    · simp at hin
    · refine ⟨?_, ?_, ?_⟩
      · intro hbin
        rw [hmode] at hbin
        exact absurd (Option.some.inj hbin) (by decide)
      · intro _
        exact ⟨lvl, hlvl, hcol, raw, hraw, mn, eps, h4, h5, h6, h7⟩
      · intro hcolor
        rw [hmode] at hcolor
        exact absurd (Option.some.inj hcolor) (by decide)
  · -- colour branch
    subst hout hm
    obtain ⟨hrl, hrp⟩ := color_channels_loop_pairs cv p _ _ _ _ hloop rfl
    simp only [mk_proc_out_contours, mk_proc_out_colors]
    intro pr hpr
    rcases hrp pr hpr with hin | ⟨ch, hch, hcol, _, raw, hraw, mn, eps, h4, h5, h6, h7⟩
    · simp at hin
    · refine ⟨?_, ?_, ?_⟩
      · intro hbin
        rw [hmode] at hbin
        exact absurd (Option.some.inj hbin) (by decide)
      · intro hgray
        rw [hmode] at hgray
        exact absurd (Option.some.inj hgray) (by decide)
      · intro _
        exact ⟨ch, hch, hcol, raw, hraw, mn, eps, h4, h5, h6, h7⟩
  · -- unmatched mode: nothing retained
    subst hout
    simp only [mk_proc_out_contours, mk_proc_out_colors]
    intro pr hpr
    simp at hpr

theorem claim_C9_witness :
    out_area17.colors.length = out_area17.contours_list.length ∧
    out_area17.path_elems.map Prod.snd = out_area17.colors := by
  have h := claim_C9 cv_area "in.png" "out.svg" p_area17 out_area17 () rfl rfl
  exact ⟨h.1, h.2.1⟩

/-! Section: Monotonicity in `minArea` -/

lemma binary_branch_mono (cv : CV I G M) {p1 p2 : Params} {a1 a2 eps : ℚ}
    (hth : p1.threshold = p2.threshold) (hsm : p1.smooth = p2.smooth)
    (ha1 : p1.minArea = some a1) (ha2 : p2.minArea = some a2) (hle : a1 ≤ a2)
    (hep1 : p1.epsilon = some eps) (hep2 : p2.epsilon = some eps)
    (img : I) {acc1 acc2 : List Contour × List String}
    (hloop1 : contour_filter_loop cv p1 "#000000"
      (cv.findContours (binary_combined_mask cv
        (cv.equalizeHist (cv.cvtColor_gray (blurred cv p1 img)))
        (p1.threshold.getD 80))) ([], []) = .ok acc1)
    (hloop2 : contour_filter_loop cv p2 "#000000"
      (cv.findContours (binary_combined_mask cv
        (cv.equalizeHist (cv.cvtColor_gray (blurred cv p2 img)))
        (p2.threshold.getD 80))) ([], []) = .ok acc2) :
    acc2.1.length ≤ acc1.1.length := by
  have hmask : binary_combined_mask cv
      (cv.equalizeHist (cv.cvtColor_gray (blurred cv p2 img))) (p2.threshold.getD 80) =
      binary_combined_mask cv
      (cv.equalizeHist (cv.cvtColor_gray (blurred cv p1 img))) (p1.threshold.getD 80) := by
    rw [blurred_congr cv hsm.symm img, ← hth]
  rw [hmask] at hloop2
  rw [contour_filter_loop_eq cv p1 _ ha1 hep1] at hloop1
  rw [contour_filter_loop_eq cv p2 _ ha2 hep2] at hloop2
  have e1 := Except.ok.inj hloop1
  have e2 := Except.ok.inj hloop2
  rw [← e1, ← e2]
  simp only [List.nil_append]
  exact (retained_news_sublist cv eps hle _).length_le

lemma grayscale_branch_mono (cv : CV I G M) {p1 p2 : Params} {a1 a2 eps : ℚ}
    (hsm : p1.smooth = p2.smooth)
    (ha1 : p1.minArea = some a1) (ha2 : p2.minArea = some a2) (hle : a1 ≤ a2)
    (hep1 : p1.epsilon = some eps) (hep2 : p2.epsilon = some eps)
    (img : I) {acc1 acc2 : List Contour × List String}
    (hloop1 : grayscale_levels_loop cv p1
      (cv.equalizeHist (cv.cvtColor_gray (blurred cv p1 img)))
      [32, 64, 96, 128, 160, 192, 224] ([], []) = .ok acc1)
    (hloop2 : grayscale_levels_loop cv p2
      (cv.equalizeHist (cv.cvtColor_gray (blurred cv p2 img)))
      [32, 64, 96, 128, 160, 192, 224] ([], []) = .ok acc2) :
    acc2.1.length ≤ acc1.1.length := by
  have hg : cv.equalizeHist (cv.cvtColor_gray (blurred cv p2 img)) =
      cv.equalizeHist (cv.cvtColor_gray (blurred cv p1 img)) := by
    rw [blurred_congr cv hsm.symm img]
  rw [hg] at hloop2
  rw [grayscale_levels_loop_eq cv p1 _ ha1 hep1] at hloop1
  rw [grayscale_levels_loop_eq cv p2 _ ha2 hep2] at hloop2
  have e1 := Except.ok.inj hloop1
  have e2 := Except.ok.inj hloop2
  rw [← e1, ← e2]
  simp only [List.nil_append]
  exact (flatten_sublist_of_forall _ _ _
    (fun lvl _ => retained_news_sublist cv eps hle _)).length_le

lemma color_branch_mono (cv : CV I G M) {p1 p2 : Params} {a1 a2 eps : ℚ}
    (hth : p1.threshold = p2.threshold) (hsm : p1.smooth = p2.smooth)
    (ha1 : p1.minArea = some a1) (ha2 : p2.minArea = some a2) (hle : a1 ≤ a2)
    (hep1 : p1.epsilon = some eps) (hep2 : p2.epsilon = some eps)
    (img : I) {acc1 acc2 : List Contour × List String}
    (hloop1 : color_channels_loop cv p1 (blurred cv p1 img) [0, 1, 2] ([], []) = .ok acc1)
    (hloop2 : color_channels_loop cv p2 (blurred cv p2 img) [0, 1, 2] ([], []) = .ok acc2) :
    acc2.1.length ≤ acc1.1.length := by
  have hb : blurred cv p2 img = blurred cv p1 img := blurred_congr cv hsm.symm img
  rw [hb] at hloop2
  rw [color_channels_loop_eq cv p1 _ ha1 hep1] at hloop1
  rw [color_channels_loop_eq cv p2 _ ha2 hep2] at hloop2
  have e1 := Except.ok.inj hloop1
  have e2 := Except.ok.inj hloop2
  rw [← e1, ← e2]
  simp only [List.nil_append]
  have hthg : p2.threshold.getD 80 = p1.threshold.getD 80 := by rw [hth]
  rw [hthg]
  exact (flatten_sublist_of_forall _ _ _
    (fun ch _ => retained_news_sublist cv eps hle _)).length_le

/-- Claim C5.  With the input, the library behaviour and every other
parameter held fixed, raising `minArea` never increases the number of
retained shapes: the retained list of the larger threshold is a
sublist of that of the smaller one. -/
theorem claim_C5 {I G M : Type} (cv : CV I G M) (inp outp : String) (p1 p2 : Params)
    (a1 a2 : ℚ) (out1 out2 : ProcOut)
    (hcm : p1.colorMode = p2.colorMode) (hep : p1.epsilon = p2.epsilon)
    (hth : p1.threshold = p2.threshold) (hsm : p1.smooth = p2.smooth)
    (ha1 : p1.minArea = some a1) (ha2 : p2.minArea = some a2) (hle : a1 ≤ a2)
    (h1 : process_image cv inp outp p1 = .ok out1)
    (h2 : process_image cv inp outp p2 = .ok out2) :
    out2.contours_list.length ≤ out1.contours_list.length := by
  cases hepsc : p1.epsilon with
  | none =>
    rw [contours_nil_of_no_epsilon cv inp outp p2 out2 h2 (hep.symm.trans hepsc)]
    simp
  | some eps =>
    have hep2 : p2.epsilon = some eps := hep.symm.trans hepsc
    obtain ⟨img1, himg1, mode1, hmode1, hcase1⟩ := process_image_ok_cases cv inp outp p1 out1 h1
    obtain ⟨img2, himg2, mode2, hmode2, hcase2⟩ := process_image_ok_cases cv inp outp p2 out2 h2
    have himg12 : img1 = img2 := by
      rw [himg1] at himg2
      exact Option.some.inj himg2
    subst himg12
    have hmode12 : mode1 = mode2 := by
      rw [hmode1, hmode2] at hcm
      exact Option.some.inj hcm
    subst hmode12
    rcases hcase1 with ⟨hmA, acc1, hloop1, hout1⟩ | ⟨hmA, acc1, hloop1, hout1⟩ |
      ⟨hmA, acc1, hloop1, hout1⟩ | ⟨hmA1, hmA2, hmA3, hout1⟩ <;>
    rcases hcase2 with ⟨hmB, acc2, hloop2, hout2⟩ | ⟨hmB, acc2, hloop2, hout2⟩ |
      ⟨hmB, acc2, hloop2, hout2⟩ | ⟨hmB1, hmB2, hmB3, hout2⟩ <;>
    subst hout1 <;> subst hout2 <;>
    simp only [mk_proc_out_contours]
    · exact binary_branch_mono cv hth hsm ha1 ha2 hle hepsc hep2 img1 hloop1 hloop2
    · exact absurd (hmA.symm.trans hmB) (by decide)
    · exact absurd (hmA.symm.trans hmB) (by decide)
    · exact absurd hmA hmB1
    · exact absurd (hmA.symm.trans hmB) (by decide)
    · exact grayscale_branch_mono cv hsm ha1 ha2 hle hepsc hep2 img1 hloop1 hloop2
    · exact absurd (hmA.symm.trans hmB) (by decide)
    · exact absurd hmA hmB2
    · exact absurd (hmA.symm.trans hmB) (by decide)
    · exact absurd (hmA.symm.trans hmB) (by decide)
    · exact color_branch_mono cv hth hsm ha1 ha2 hle hepsc hep2 img1 hloop1 hloop2
    · exact absurd hmA hmB3
    · exact absurd hmB hmA1
    · exact absurd hmB hmA2
    · exact absurd hmB hmA3
    · simp

/-- Binary-mode parameters identical to `p_area17` except for a larger
`minArea` (19 > 18, so the pentagon no longer passes). -/
def p_area19 : Params := ⟨some "binary", some 19, some 1, none, none⟩

/-- The result of the `minArea 19` run. -/
def out_area19 : ProcOut :=
  match process_image cv_area "in.png" "out.svg" p_area19 with
  | .ok o => o
  | .error _ => default

theorem claim_C5_witness :
    out_area19.contours_list.length ≤ out_area17.contours_list.length :=
  claim_C5 cv_area "in.png" "out.svg" p_area17 p_area19 17 19 out_area17 out_area19
    rfl rfl rfl rfl rfl rfl (by decide) rfl rfl
